import Mathlib

/-!
# Time To Interactive audit — verification of `lighthouse-core/audits/time-to-interactive.js`

A shallow embedding of the TTI audit over exact rational arithmetic.

Conventions of the embedding:
* JS numbers are modelled as `ℚ` (all arithmetic in the audit is on
  millisecond timestamps and latencies; no float-specific behaviour is
  load-bearing here).
* `Number.prototype.toFixed(f)` produces a decimal string; wherever the code
  later uses that string numerically (the `>` comparison against the
  threshold, the argument to `computeComplementaryPercentile`), JS coerces it
  back to the number it denotes, i.e. the value rounded to `f` decimal places
  (ties away from zero toward `+∞` for the non-negative values that occur
  here). We model this with `toFixed1` / `toFixed2` returning that rational.
* The `while (currentLatency > threshold)` loop starts from
  `currentLatency = Infinity`, so its first iteration is unconditional; the
  embedding writes the equivalent do-while form (body first, exit test on the
  freshly computed latency at the bottom).
* The external collaborators (`TracingProcessor.getRiskToResponsiveness` and
  the log-normal distribution) are parameters `est` / `ccdf`.
* The loop terminates because `endTime` grows by 50 each iteration; the
  embedding uses explicit fuel, with a distinguished `outOfFuel` outcome that
  never occurs for sufficient fuel and is never identified with a real
  outcome of the program.
-/

namespace TTI

/-- Numeric value of `x.toFixed(1)` (round to one decimal place,
half toward `+∞`). -/
def toFixed1 (x : ℚ) : ℚ := ((⌊10 * x + 1/2⌋ : ℤ) : ℚ) / 10

/-- Numeric value of `x.toFixed(2)` (round to two decimal places,
half toward `+∞`). -/
def toFixed2 (x : ℚ) : ℚ := ((⌊100 * x + 1/2⌋ : ℤ) : ℚ) / 100

/-- JS `Math.round`: round to the nearest integer, half toward `+∞`. -/
def jsRound (x : ℚ) : ℤ := ⌊x + 1/2⌋

/-- One visual-progress sample, as built on lines 76–81:
`{ progress: frame.getProgress(), time: frame.getTimeStamp() }`.
`time` is absolute trace time, `progress` a percentage. -/
structure Frame where
  progress : ℚ
  time : ℚ
deriving DecidableEq

/-- One entry of `foundLatencies` (lines 110–113): the window start as pushed
(`startTime.toFixed(1)`) and the estimated latency as pushed
(`latencies[0].time.toFixed(2)`), both by numeric value. -/
structure LatencyObservation where
  startTime : ℚ
  estLatency : ℚ
deriving DecidableEq

/-- Outcome of the window-search loop of lines 97–117.
`found s lat log`: the loop exited with `startTime = s`,
`currentLatency = lat`, `foundLatencies = log`.
`exhausted log`: the `endTime > endOfTraceTime` guard fired (line 103); the
code then executes a bare `return;` — the accumulated `log` is recorded here
only so that theorems can speak about it; the audit result built from this
outcome is `undefined` and does not carry it.
`outOfFuel log` is the embedding artifact for insufficient fuel. -/
inductive SearchOutcome where
  | found : ℚ → ℚ → List LatencyObservation → SearchOutcome
  | exhausted : List LatencyObservation → SearchOutcome
  | outOfFuel : List LatencyObservation → SearchOutcome
deriving DecidableEq

/-- The `foundLatencies` accumulator of a search outcome. -/
def SearchOutcome.log : SearchOutcome → List LatencyObservation
  | .found _ _ l => l
  | .exhausted l => l
  | .outOfFuel l => l

/-- Lines 97–117, the responsiveness window search, in do-while form (the
initial `currentLatency = Infinity` makes the first top-of-loop test
vacuously true).  Loop body: `startTime += 50; endTime = startTime + 500`;
if `endTime > endOfTraceTime` the audit performs a bare `return;`
(`exhausted`); otherwise query the estimator, push
`{startTime: startTime.toFixed(1), estLatency: latency.toFixed(2)}`, set
`currentLatency = estLatency` and re-test `currentLatency > 50`. -/
def searchLoop (est : ℚ → ℚ → ℚ) (endOfTraceTime : ℚ) :
    ℕ → ℚ → List LatencyObservation → SearchOutcome
  | 0, _, foundLatencies => .outOfFuel foundLatencies
  | fuel + 1, startTime, foundLatencies =>
    let startTime' := startTime + 50
    let endTime := startTime' + 500
    if endOfTraceTime < endTime then
      .exhausted foundLatencies
    else
      let estLatency := toFixed2 (est startTime' endTime)
      let foundLatencies' := foundLatencies ++ [⟨toFixed1 startTime', estLatency⟩]
      if 50 < estLatency then
        searchLoop est endOfTraceTime fuel startTime' foundLatencies'
      else
        .found startTime' estLatency foundLatencies'

/-- The sequence of `(startTime, endTime)` windows for which line 107's
`TracingProcessor.getRiskToResponsiveness` is invoked during a run of
`searchLoop` with the same arguments, in query order: the same control flow,
recording the query arguments instead of the observations. -/
def searchQueries (est : ℚ → ℚ → ℚ) (endOfTraceTime : ℚ) : ℕ → ℚ → List (ℚ × ℚ)
  | 0, _ => []
  | fuel + 1, startTime =>
    let startTime' := startTime + 50
    let endTime := startTime' + 500
    if endOfTraceTime < endTime then
      []
    else
      (startTime', endTime) ::
        (if 50 < toFixed2 (est startTime' endTime) then
          searchQueries est endOfTraceTime fuel startTime'
        else
          [])

/-- The upstream `FMPMetric.audit` result as consumed on lines 60–65:
`value` (compared against the `-1` sentinel), `rawValue` (by the numeric
value `parseFloat` extracts from it), `debugString`, and
`extendedInfo.timings.fMPfull` / `.navStart`. -/
structure FMPResult where
  value : ℚ
  rawValue : ℚ
  debugString : String
  fMPfull : ℚ
  navStart : ℚ

/-- The audit's possible results.
`errorResult value rawValue debugString` is `generateError` (lines 159–166).
`success score timeToInteractive fMP visuallyReady mainThreadAvail
expectedLatencyAtTTI foundLatencies` is the `generateAuditResult` call of
lines 144–149 together with its `extendedInfo` (lines 133–141); timing fields
carry the numeric values of their `toFixed(1)` strings.
`undefinedResult` is the bare `return;` of line 104: the promise resolves
with `undefined`, no result object at all.
`outOfFuel` is the embedding artifact. -/
inductive AuditOutcome where
  | errorResult : ℚ → ℚ → String → AuditOutcome
  | success : ℤ → ℚ → ℚ → ℚ → ℚ → ℚ → List LatencyObservation → AuditOutcome
  | undefinedResult : AuditOutcome
  | outOfFuel : AuditOutcome
deriving DecidableEq

/-- Line 83–85: `visualProgress.find(frame => frame.time >= fMPts &&
frame.progress >= 85)`. -/
def findVisuallyReady (fMPts : ℚ) (frames : List Frame) : Option Frame :=
  frames.find? (fun f => decide (fMPts ≤ f.time ∧ 85 ≤ f.progress))

/-- Lines 124–131: `score = 100 * ccdf(t)`, then `Math.min(100, ·)`,
`Math.max(0, ·)`, `Math.round`. -/
def computeScore (ccdf : ℚ → ℚ) (t : ℚ) : ℤ :=
  jsRound (max 0 (min 100 (100 * ccdf t)))

/-- When `find` returns `undefined` (no visually-ready frame), line 86 reads
`.time` of `undefined`; the thrown `TypeError` is caught on line 150 and
becomes `generateError(err)`'s debug string. -/
def visuallyReadyTypeError : String :=
  "TypeError: Cannot read property time of undefined"

/-- Lines 58–153, `TTIMetric.audit`, with the upstream FMP result, the trace
bound `model.bounds.max`, and the normalized speedline frames as inputs, and
the external estimator and distribution as function parameters. -/
def audit (est : ℚ → ℚ → ℚ) (ccdf : ℚ → ℚ) (fuel : ℕ)
    (fmpResult : FMPResult) (endOfTraceTime : ℚ) (frames : List Frame) :
    AuditOutcome :=
  if fmpResult.value = -1 then
    .errorResult (-1) (-1) fmpResult.debugString
  else
    let fmpTiming := fmpResult.rawValue
    let fMPts := fmpResult.fMPfull + fmpResult.navStart
    match findVisuallyReady fMPts frames with
    | none => .errorResult (-1) (-1) visuallyReadyTypeError
    | some visuallyReady =>
      let visuallyReadyTiming := visuallyReady.time - fmpResult.navStart
      let startTime := max fmpTiming visuallyReadyTiming - 50
      match searchLoop est endOfTraceTime fuel startTime [] with
      | .outOfFuel _ => .outOfFuel
      | .exhausted _ => .undefinedResult
      | .found s currentLatency foundLatencies =>
        let timeToInteractive := toFixed1 s
        let score := computeScore ccdf timeToInteractive
        .success score timeToInteractive (toFixed1 fmpTiming)
          (toFixed1 visuallyReadyTiming) (toFixed1 s) currentLatency
          foundLatencies

/-- Modelled from the spec: the log-normal distribution primitive
(`TracingProcessor.getLogNormalDistribution`, which lives outside this
audit's source) is specified only through its interface contract —
`complementaryPercentile` maps into `[0, 1]`, is monotonically
non-increasing, and meets the documented calibration anchors at
1200 / 5000 / 15000 ms (median exactly ½; near-1 and near-0 within the
documented tolerance, taken as 1/100). -/
structure CcdfContract (c : ℚ → ℚ) : Prop where
  mem_range : ∀ x, 0 ≤ c x ∧ c x ≤ 1
  anti : ∀ x y, x ≤ y → c y ≤ c x
  anchor_median : c 5000 = 1/2
  anchor_low : 99/100 ≤ c 1200
  anchor_high : c 15000 ≤ 1/100

/-- A concrete distribution satisfying `CcdfContract`, to witness
`score_normalization_ok`: clamp of an affine ramp through `(5000, 1/2)`. -/
def wCcdf (x : ℚ) : ℚ := max 0 (min 1 ((7600 - x) / 5200))

end TTI

namespace TTI

/-! ## Evaluation lemmas for the rounding helpers -/

lemma toFixed1_eval {x r : ℚ} {z : ℤ} (h1 : (z : ℚ) ≤ 10 * x + 1/2)
    (h2 : 10 * x + 1/2 < z + 1) (h3 : (z : ℚ) = 10 * r) : toFixed1 x = r := by
  simp only [toFixed1]
  rw [Int.floor_eq_iff.mpr ⟨h1, h2⟩, h3]
  ring

lemma toFixed2_eval {x r : ℚ} {z : ℤ} (h1 : (z : ℚ) ≤ 100 * x + 1/2)
    (h2 : 100 * x + 1/2 < z + 1) (h3 : (z : ℚ) = 100 * r) : toFixed2 x = r := by
  simp only [toFixed2]
  rw [Int.floor_eq_iff.mpr ⟨h1, h2⟩, h3]
  ring

/-! ## Theorems -/

/-- C6: when the upstream meaningful-paint computation reports the sentinel
value `-1` (line 61), the audit returns `generateError`'s result — score
`-1`, rawValue `-1`, the upstream debug string verbatim — and this result
does not depend on the estimator, the distribution, the trace bound or the
frames: none of the three later stages executes. -/
theorem audit_fmp_sentinel (est : ℚ → ℚ → ℚ) (ccdf : ℚ → ℚ) (fuel : ℕ)
    (fmpResult : FMPResult) (endOfTraceTime : ℚ) (frames : List Frame)
    (h : fmpResult.value = -1) :
    audit est ccdf fuel fmpResult endOfTraceTime frames =
      AuditOutcome.errorResult (-1) (-1) fmpResult.debugString := by
  simp [audit, h]

theorem audit_fmp_sentinel_witness :
    audit (fun _ _ => 0) (fun _ => 0) 0
        ⟨-1, -1, "upstream failure", 0, 0⟩ 0 [] =
      AuditOutcome.errorResult (-1) (-1) "upstream failure" :=
  audit_fmp_sentinel _ _ _ _ _ _ rfl

/-- C1 (code bug evaluation): when the search exhausts the trace, the audit
does NOT return an explicit failure result; line 104's bare `return;`
resolves the promise with `undefined`. First input: exhaustion on the very
first iteration (scenario C). Second input: exhaustion after one successful
query — the internal loop accumulated the observation `⟨2000, 100⟩`, yet the
audit result is still the bare `undefined`, carrying no log. -/
theorem audit_exhaustion_returns_undefined :
    audit (fun _ _ => 100) (fun _ => 1/2) 5 ⟨0, 2000, "", 2000, 0⟩ 2400
        [⟨100, 2000⟩] = AuditOutcome.undefinedResult ∧
    audit (fun _ _ => 100) (fun _ => 1/2) 5 ⟨0, 2000, "", 2000, 0⟩ 2520
        [⟨100, 2000⟩] = AuditOutcome.undefinedResult ∧
    (searchLoop (fun _ _ => 100) 2520 5 1950 []).log = [⟨2000, 100⟩] := by
  have t1 : toFixed1 (2000 : ℚ) = 2000 :=
    toFixed1_eval (z := 20000) (by norm_num) (by norm_num) (by norm_num)
  have t2 : toFixed2 (100 : ℚ) = 100 :=
    toFixed2_eval (z := 10000) (by norm_num) (by norm_num) (by norm_num)
  refine ⟨?_, ?_, ?_⟩ <;>
    norm_num [audit, findVisuallyReady, List.find?, searchLoop,
      SearchOutcome.log, t1, t2]

/-- C3 (code bug evaluation): a window whose estimated latency is exactly 50
DOES terminate the search: `while (currentLatency > threshold)` exits as
soon as the latency is `≤ 50`, although the code's own contract (lines 54
and 88) is "Est Input Latency is <50ms". With the estimator constantly 50,
the loop exits `found` at its first window. -/
theorem search_found_at_threshold_50 :
    searchLoop (fun _ _ => 50) 10000 3 2050 [] =
      SearchOutcome.found 2100 50 [⟨2100, 50⟩] := by
  have t1 : toFixed1 (2100 : ℚ) = 2100 :=
    toFixed1_eval (z := 21000) (by norm_num) (by norm_num) (by norm_num)
  have t2 : toFixed2 (50 : ℚ) = 50 :=
    toFixed2_eval (z := 5000) (by norm_num) (by norm_num) (by norm_num)
  norm_num [searchLoop, t1, t2]

/-- C8 counterexample: the estimator's value is NOT carried at full
precision. With the estimator returning `50.004` for the first window, the
observation logged is `50` (the `toFixed(2)` value) and the threshold
comparison sees `50`, terminating the search — even though the raw latency
`50.004` is strictly above the threshold. -/
theorem latency_rounded_cex :
    searchLoop (fun _ _ => 50 + 1/250) 10000 3 2050 [] =
        SearchOutcome.found 2100 50 [⟨2100, 50⟩] ∧
      (50 : ℚ) < 50 + 1/250 := by
  have t1 : toFixed1 (2100 : ℚ) = 2100 :=
    toFixed1_eval (z := 21000) (by norm_num) (by norm_num) (by norm_num)
  have t2 : toFixed2 ((12501 : ℚ)/250) = 50 :=
    toFixed2_eval (z := 5000) (by norm_num) (by norm_num) (by norm_num)
  refine ⟨?_, by norm_num⟩
  norm_num [searchLoop, t1, t2]

/-- C2 counterexample (scenario A): paint 2000 ms, visual readiness at
relative 2100 ms, so the fused instant is `max 2000 2100 = 2100` and the
loop starts from `2100 - 50`. The full query trace is the single window
`[2100, 2600]`; the window `[2050, 2550]` claimed by the spec is never
queried. -/
theorem first_window_cex :
    searchQueries (fun _ _ => 40) 100000 5 (max 2000 2100 - 50) =
        [(2100, 2600)] ∧
      ((2050 : ℚ), (2550 : ℚ)) ∉
        searchQueries (fun _ _ => 40) 100000 5 (max 2000 2100 - 50) := by
  have hm : (max 2000 2100 : ℚ) - 50 = 2050 := by
    rw [max_eq_right (by norm_num : (2000:ℚ) ≤ 2100)]
    norm_num
  have t2 : toFixed2 (40 : ℚ) = 40 :=
    toFixed2_eval (z := 4000) (by norm_num) (by norm_num) (by norm_num)
  rw [hm]
  constructor
  · norm_num [searchQueries, t2]
  · norm_num [searchQueries, t2]

/-- C2 amended: the initial assignment `startTime = fusedInstant - 50` is
immediately cancelled by the loop's leading `startTime += 50`, so the first
window queried starts exactly AT the fused ready instant `r` and is
`[r, r + 500]` (whenever the trace has room for it and fuel is positive). -/
theorem first_query_at_ready_instant (est : ℚ → ℚ → ℚ) (eot : ℚ) (fuel : ℕ)
    (r : ℚ) (hfuel : 0 < fuel) (hroom : r + 500 ≤ eot) :
    (searchQueries est eot fuel (r - 50)).head? = some (r, r + 500) := by
  obtain ⟨n, rfl⟩ := Nat.exists_eq_succ_of_ne_zero hfuel.ne'
  have h1 : r - 50 + 50 = r := by ring
  simp only [searchQueries, h1, if_neg (not_lt.mpr hroom)]
  rfl

theorem first_query_at_ready_instant_witness :
    (searchQueries (fun _ _ => 40) 100000 5 (2100 - 50)).head? =
      some (2100, 2100 + 500) :=
  first_query_at_ready_instant _ _ _ _ (by norm_num) (by norm_num)

/-- The function `List.find?` returns the first element satisfying the
predicate: the list splits into a prefix of failures, the found element,
and a suffix. -/
lemma find?_first {α : Type} (p : α → Bool) (l : List α)
    (h : ∃ x ∈ l, p x = true) :
    ∃ x l₁ l₂, l = l₁ ++ x :: l₂ ∧ (∀ y ∈ l₁, p y = false) ∧ p x = true ∧
      l.find? p = some x := by
  induction l with
  | nil => simp at h
  | cons a l ih =>
    by_cases hp : p a = true
    · exact ⟨a, [], l, rfl, by simp, hp, by simp [List.find?_cons_of_pos _ hp]⟩
    · have hp' : p a = false := by simpa using hp
      obtain ⟨x, hx, hpx⟩ := h
      rcases List.mem_cons.mp hx with rfl | hx'
      · exact absurd hpx hp
      · obtain ⟨y, l₁, l₂, heq, hall, hpy, hfind⟩ := ih ⟨x, hx', hpx⟩
        refine ⟨y, a :: l₁, l₂, by simp [heq], ?_, hpy, ?_⟩
        · intro z hz
          rcases List.mem_cons.mp hz with rfl | hz'
          · exact hp'
          · exact hall z hz'
        · rw [List.find?_cons_of_neg _ hp]
          exact hfind

/-- C4: for every paint timing `m`, navigation start `v` and time-ascending
visual-progress sequence containing a sample with absolute time `≥ m + v`
and progress `≥ 85`, Signal Fusion (lines 82–89) selects the FIRST such
sample `f` (a prefix of non-matching samples precedes it), and the fused
instant `max m (f.time - v)` is `≥ m` and `≥` the matched sample's
page-relative time `f.time - v`. -/
theorem fusion_selects_first_match (m v : ℚ) (frames : List Frame)
    (hasc : List.Chain' (fun a b => a.time ≤ b.time) frames)
    (h : ∃ f ∈ frames, m + v ≤ f.time ∧ 85 ≤ f.progress) :
    ∃ f l₁ l₂,
      frames = l₁ ++ f :: l₂ ∧
      (∀ g ∈ l₁, ¬(m + v ≤ g.time ∧ 85 ≤ g.progress)) ∧
      (m + v ≤ f.time ∧ 85 ≤ f.progress) ∧
      findVisuallyReady (m + v) frames = some f ∧
      m ≤ max m (f.time - v) ∧
      f.time - v ≤ max m (f.time - v) := by
  have hb : ∃ x ∈ frames,
      (fun g => decide (m + v ≤ g.time ∧ 85 ≤ g.progress)) x = true := by
    obtain ⟨f, hf, hc⟩ := h
    exact ⟨f, hf, by simpa using hc⟩
  obtain ⟨f, l₁, l₂, heq, hall, hpf, hfind⟩ := find?_first _ frames hb
  refine ⟨f, l₁, l₂, heq, ?_, by simpa using hpf, hfind,
    le_max_left _ _, le_max_right _ _⟩
  intro g hg
  simpa using hall g hg

theorem fusion_selects_first_match_witness :
    ∃ f l₁ l₂,
      ([⟨50, 2900⟩, ⟨85, 3100⟩] : List Frame) = l₁ ++ f :: l₂ ∧
      (∀ g ∈ l₁, ¬((2000 : ℚ) + 1000 ≤ g.time ∧ 85 ≤ g.progress)) ∧
      ((2000 : ℚ) + 1000 ≤ f.time ∧ 85 ≤ f.progress) ∧
      findVisuallyReady (2000 + 1000) [⟨50, 2900⟩, ⟨85, 3100⟩] = some f ∧
      (2000 : ℚ) ≤ max 2000 (f.time - 1000) ∧
      f.time - 1000 ≤ max 2000 (f.time - 1000) :=
  fusion_selects_first_match 2000 1000 _
    (by simp [List.chain'_cons]; norm_num)
    ⟨⟨85, 3100⟩, by simp, by norm_num⟩

/-- C5: when no visual-progress sample has `time ≥ fMPts` and
`progress ≥ 85` (and the upstream paint metric did not fail), `find` yields
`undefined`, line 86 throws, and the audit surfaces the failure as
`generateError`'s result — independent of the estimator, the distribution
and the fuel: the search and the normalization never execute. -/
theorem audit_error_no_visual_completion (est : ℚ → ℚ → ℚ) (ccdf : ℚ → ℚ)
    (fuel : ℕ) (fmpResult : FMPResult) (eot : ℚ) (frames : List Frame)
    (hv : fmpResult.value ≠ -1)
    (h : ∀ f ∈ frames,
      ¬(fmpResult.fMPfull + fmpResult.navStart ≤ f.time ∧ 85 ≤ f.progress)) :
    audit est ccdf fuel fmpResult eot frames =
      AuditOutcome.errorResult (-1) (-1) visuallyReadyTypeError := by
  have hfind :
      findVisuallyReady (fmpResult.fMPfull + fmpResult.navStart) frames =
        none := by
    simp only [findVisuallyReady, List.find?_eq_none]
    intro f hf
    simpa using h f hf
  simp [audit, hv, hfind]

theorem audit_error_no_visual_completion_witness :
    audit (fun _ _ => 0) (fun _ => 0) 1 ⟨0, 2000, "", 2000, 0⟩ 10000
        [⟨50, 5000⟩] =
      AuditOutcome.errorResult (-1) (-1) visuallyReadyTypeError :=
  audit_error_no_visual_completion _ _ _ _ _ _ (by norm_num)
    (by rintro f hf; simp at hf; subst hf; norm_num)

/-- Adding the step size 50 commutes with `toFixed(1)` rounding. -/
lemma toFixed1_add_50 (x : ℚ) : toFixed1 (x + 50) = toFixed1 x + 50 := by
  simp only [toFixed1]
  have h : (10 : ℚ) * (x + 50) + 1/2 = (10 * x + 1/2) + (500 : ℤ) := by
    push_cast; ring
  rw [h, Int.floor_add_int]
  push_cast
  ring

/-- The first window queried (if any) starts one step after the `startTime`
the loop was entered with. -/
lemma searchQueries_head (est : ℚ → ℚ → ℚ) (eot : ℚ) (fuel : ℕ) (s : ℚ)
    {q : ℚ × ℚ} (hq : (searchQueries est eot fuel s).head? = some q) :
    q = (s + 50, s + 50 + 500) := by
  cases fuel with
  | zero => simp [searchQueries] at hq
  | succ n =>
    simp only [searchQueries] at hq
    by_cases hc : eot < s + 50 + 500
    · simp [hc] at hq
    · simp [hc] at hq
      exact hq.symm

/-- Successive queried window starts differ by exactly 50. -/
lemma searchQueries_chain (est : ℚ → ℚ → ℚ) (eot : ℚ) (fuel : ℕ) (s : ℚ) :
    List.Chain' (fun a b : ℚ × ℚ => b.1 = a.1 + 50)
      (searchQueries est eot fuel s) := by
  induction fuel generalizing s with
  | zero => simp [searchQueries]
  | succ n ih =>
    simp only [searchQueries]
    by_cases hc : eot < s + 50 + 500
    · simp [hc]
    · simp only [if_neg hc]
      by_cases hl : 50 < toFixed2 (est (s + 50) (s + 50 + 500))
      · simp only [if_pos hl]
        refine List.chain'_cons'.mpr ⟨?_, ih (s + 50)⟩
        intro y hy
        rw [searchQueries_head est eot n (s + 50) hy]
      · simp [if_neg hl]

/-- The observation log produced by a run of the loop is exactly the list of
queries it made, each recorded as `{startTime.toFixed(1), latency.toFixed(2)}`
and appended after the incoming accumulator: one observation per estimator
query, in query order. -/
lemma searchLoop_log_eq (est : ℚ → ℚ → ℚ) (eot : ℚ) (fuel : ℕ) (s : ℚ)
    (log : List LatencyObservation) :
    (searchLoop est eot fuel s log).log =
      log ++ (searchQueries est eot fuel s).map
        (fun q => ⟨toFixed1 q.1, toFixed2 (est q.1 q.2)⟩) := by
  induction fuel generalizing s log with
  | zero => simp [searchLoop, searchQueries, SearchOutcome.log]
  | succ n ih =>
    simp only [searchLoop, searchQueries]
    by_cases hc : eot < s + 50 + 500
    · simp [hc, SearchOutcome.log]
    · simp only [if_neg hc]
      by_cases hl : 50 < toFixed2 (est (s + 50) (s + 50 + 500))
      · simp only [if_pos hl]
        rw [ih]
        simp
      · simp [if_neg hl, SearchOutcome.log]

/-- C9: throughout any run of the search, each successive queried window
start is exactly 50 greater than the previous, and the `startTime` values of
the accumulated observation log, in insertion order, also increase by
exactly 50 from one entry to the next. -/
theorem search_starts_increase_by_50 (est : ℚ → ℚ → ℚ) (eot : ℚ) (fuel : ℕ)
    (s : ℚ) :
    List.Chain' (fun a b : ℚ × ℚ => b.1 = a.1 + 50)
        (searchQueries est eot fuel s) ∧
      List.Chain' (fun a b : LatencyObservation =>
          b.startTime = a.startTime + 50)
        ((searchLoop est eot fuel s []).log) := by
  refine ⟨searchQueries_chain est eot fuel s, ?_⟩
  rw [searchLoop_log_eq]
  simp only [List.nil_append]
  rw [List.chain'_map]
  refine (searchQueries_chain est eot fuel s).imp ?_
  intro a b hab
  simp only [hab, toFixed1_add_50]

/-- C10: the estimator is only ever queried for windows of width exactly
500 ms whose end does not exceed `endOfTraceTime`: the boundary check of
line 103 precedes the query of line 107. -/
theorem queries_have_width_500_within_trace (est : ℚ → ℚ → ℚ) (eot : ℚ)
    (fuel : ℕ) (s : ℚ) (q : ℚ × ℚ) (hq : q ∈ searchQueries est eot fuel s) :
    q.2 = q.1 + 500 ∧ q.2 ≤ eot := by
  induction fuel generalizing s with
  | zero => simp [searchQueries] at hq
  | succ n ih =>
    simp only [searchQueries] at hq
    by_cases hc : eot < s + 50 + 500
    · simp [hc] at hq
    · simp only [if_neg hc, List.mem_cons] at hq
      rcases hq with rfl | hq
      · exact ⟨rfl, not_lt.mp hc⟩
      · by_cases hl : 50 < toFixed2 (est (s + 50) (s + 50 + 500))
        · exact ih (s + 50) (by simpa [hl] using hq)
        · simp [hl] at hq

theorem queries_have_width_500_within_trace_witness :
    ((50 : ℚ), (550 : ℚ)).2 = ((50 : ℚ), (550 : ℚ)).1 + 500 ∧
      ((50 : ℚ), (550 : ℚ)).2 ≤ 1000 :=
  queries_have_width_500_within_trace (fun _ _ => 0) 1000 5 0 (50, 550)
    (by
      have t : toFixed2 (0 : ℚ) = 0 :=
        toFixed2_eval (z := 0) (by norm_num) (by norm_num) (by norm_num)
      norm_num [searchQueries, t])

/-- C8 amended: the estimator's latency is rounded to two decimal places
(`toFixed(2)`) BEFORE the threshold comparison and before being logged:
the search cannot distinguish two estimators that agree after rounding, and
every logged `estLatency` is an integer multiple of 1/100. -/
theorem search_latency_two_decimals (e₁ e₂ : ℚ → ℚ → ℚ) (eot : ℚ)
    (h : ∀ s t, toFixed2 (e₁ s t) = toFixed2 (e₂ s t)) :
    (∀ fuel s log, searchLoop e₁ eot fuel s log = searchLoop e₂ eot fuel s log) ∧
      (∀ fuel s, ∀ o ∈ (searchLoop e₁ eot fuel s []).log,
        ∃ k : ℤ, o.estLatency = (k : ℚ) / 100) := by
  constructor
  · intro fuel
    induction fuel with
    | zero => intro s log; simp [searchLoop]
    | succ n ih =>
      intro s log
      simp only [searchLoop]
      rw [h (s + 50) (s + 50 + 500)]
      by_cases hc : eot < s + 50 + 500
      · simp [hc]
      · simp only [if_neg hc]
        by_cases hl : 50 < toFixed2 (e₂ (s + 50) (s + 50 + 500))
        · simp only [if_pos hl]
          exact ih (s + 50) _
        · simp [if_neg hl]
  · intro fuel s o ho
    rw [searchLoop_log_eq] at ho
    simp only [List.nil_append, List.mem_map] at ho
    obtain ⟨q, hq, rfl⟩ := ho
    exact ⟨⌊100 * e₁ q.1 q.2 + 1/2⌋, rfl⟩

theorem search_latency_two_decimals_witness :
    searchLoop (fun _ _ => (50 : ℚ) + 1/250) 10000 3 2050 [] =
      searchLoop (fun _ _ => (50 : ℚ)) 10000 3 2050 [] :=
  (search_latency_two_decimals _ _ 10000 (by
    intro s t
    have ha : toFixed2 ((12501 : ℚ)/250) = 50 :=
      toFixed2_eval (z := 5000) (by norm_num) (by norm_num) (by norm_num)
    have hb : toFixed2 (50 : ℚ) = 50 :=
      toFixed2_eval (z := 5000) (by norm_num) (by norm_num) (by norm_num)
    norm_num [ha, hb])).1 3 2050 []

lemma jsRound_mono {x y : ℚ} (h : x ≤ y) : jsRound x ≤ jsRound y :=
  Int.floor_mono (by linarith)

lemma le_jsRound_of_le {x : ℚ} {n : ℤ} (h : (n : ℚ) ≤ x) : n ≤ jsRound x :=
  Int.le_floor.mpr (by linarith)

lemma jsRound_le_of_le {x : ℚ} {n : ℤ} (h : x ≤ n) : jsRound x ≤ n := by
  have h2 : jsRound x ≤ jsRound (n : ℚ) := jsRound_mono h
  have h3 : jsRound (n : ℚ) = n := by
    simp only [jsRound]
    rw [add_comm, Int.floor_add_int,
      show ⌊(1/2 : ℚ)⌋ = 0 from Int.floor_eq_iff.mpr (by norm_num)]
    ring
  omega

/-- C7: assuming the distribution contract, the score of lines 124–131 is an
integer in `[0, 100]` equal to `round(clamp(100 · ccdf t, 0, 100))`, is
monotonically non-increasing in `t`, and meets the calibration anchors:
`score 5000 = 50`, `score 1200 ∈ [99, 100]`, `score 15000 ∈ [0, 1]`. -/
theorem score_normalization_ok (c : ℚ → ℚ) (h : CcdfContract c) :
    (∀ t, 0 ≤ computeScore c t ∧ computeScore c t ≤ 100) ∧
      (∀ t, computeScore c t = jsRound (min 100 (max 0 (100 * c t)))) ∧
      (∀ t u, t ≤ u → computeScore c u ≤ computeScore c t) ∧
      computeScore c 5000 = 50 ∧
      (99 ≤ computeScore c 1200 ∧ computeScore c 1200 ≤ 100) ∧
      (0 ≤ computeScore c 15000 ∧ computeScore c 15000 ≤ 1) := by
  have hid : ∀ t, computeScore c t = jsRound (100 * c t) := by
    intro t
    obtain ⟨h0, h1⟩ := h.mem_range t
    simp only [computeScore]
    rw [min_eq_right (by linarith), max_eq_right (by linarith)]
  have hbounds : ∀ t, 0 ≤ computeScore c t ∧ computeScore c t ≤ 100 := by
    intro t
    obtain ⟨h0, h1⟩ := h.mem_range t
    rw [hid t]
    exact ⟨le_jsRound_of_le (by push_cast; linarith),
      jsRound_le_of_le (by push_cast; linarith)⟩
  refine ⟨hbounds, ?_, ?_, ?_, ?_, ?_⟩
  · intro t
    obtain ⟨h0, h1⟩ := h.mem_range t
    rw [hid t, max_eq_right (by linarith), min_eq_right (by linarith)]
  · intro t u htu
    rw [hid t, hid u]
    exact jsRound_mono (by nlinarith [h.anti t u htu])
  · rw [hid 5000, h.anchor_median]
    simp only [jsRound]
    rw [show (100 : ℚ) * (1/2) + 1/2 = 101/2 by norm_num]
    exact Int.floor_eq_iff.mpr (by norm_num)
  · refine ⟨?_, (hbounds 1200).2⟩
    rw [hid 1200]
    exact le_jsRound_of_le (by have := h.anchor_low; push_cast; linarith)
  · refine ⟨(hbounds 15000).1, ?_⟩
    rw [hid 15000]
    exact jsRound_le_of_le (by have := h.anchor_high; push_cast; linarith)

lemma wCcdf_contract : CcdfContract wCcdf := by
  refine ⟨?_, ?_, ?_, ?_, ?_⟩
  · intro x
    refine ⟨le_max_left 0 _, max_le (by norm_num) ?_⟩
    exact le_trans (min_le_left _ _) le_rfl
  · intro x y hxy
    apply max_le_max le_rfl
    apply min_le_min le_rfl
    exact (div_le_div_iff_of_pos_right (by norm_num : (0 : ℚ) < 5200)).mpr
      (by linarith)
  · simp only [wCcdf]
    rw [show ((7600 : ℚ) - 5000) / 5200 = 1/2 by norm_num,
      min_eq_right (by norm_num), max_eq_right (by norm_num)]
  · simp only [wCcdf]
    rw [show ((7600 : ℚ) - 1200) / 5200 = 16/13 by norm_num,
      min_eq_left (by norm_num), max_eq_right (by norm_num)]
    norm_num
  · simp only [wCcdf]
    rw [show ((7600 : ℚ) - 15000) / 5200 = -37/26 by norm_num,
      min_eq_right (by norm_num), max_eq_left (by norm_num)]
    norm_num

theorem score_normalization_ok_witness :
    computeScore wCcdf 5000 = 50 ∧
      (99 ≤ computeScore wCcdf 1200 ∧ computeScore wCcdf 1200 ≤ 100) :=
  ⟨(score_normalization_ok wCcdf wCcdf_contract).2.2.2.1,
    (score_normalization_ok wCcdf wCcdf_contract).2.2.2.2.1⟩

end TTI
